import Mathlib

/-!
A shallow embedding of the query-building core of the repository
(`src/core/BaseService.ts`, second revision in the bundle, whose line numbers
the claims reference).  JavaScript objects are modelled as insertion-ordered
association lists, in-place mutation as explicit state passing (a function that
mutates a caller-supplied object returns the object's post-call contents), and
the underlying store (TypeORM) as a list of rows together with an evaluation
semantics for the compiled predicate tree.
-/

/-- A scalar filter value (`string | number | null` in the source). -/
inductive Value where
  | vnull
  | vint (n : Int)
  | vstr (s : String)
deriving DecidableEq, Repr

/-- A leaf value of a where object: either a scalar, or - for relation keys -
a nested mapping of filter keys to scalars. -/
inductive LeafVal where
  | scalar (v : Value)
  | nested (m : List (String × Value))
deriving DecidableEq, Repr

/-- An entity row: logical attribute name to value. -/
abbrev Row := List (String × Value)

/-- Look an attribute up in a row. -/
def rowLookup (row : Row) (attr : String) : Option Value :=
  (row.find? (fun kv => kv.1 == attr)).map (fun kv => kv.2)

/-- `listStarts p s` is true when `p` is an initial segment of `s`
(JS `s.indexOf(p) === 0`). -/
def listStarts : List Char → List Char → Bool
  | [], _ => true
  | _ :: _, [] => false
  | c :: cs, d :: ds => c == d && listStarts cs ds

/-- `strStarts p s`: the string `s` begins with `p`
(translates `key.indexOf('deletedAt_') === 0` in `buildFindQuery`). -/
def strStarts (p s : String) : Bool :=
  listStarts p.data s.data

/-- One step of JS `String.prototype.split(sep)`: returns the first piece and
the remaining pieces.  `split` never returns an empty array: splitting the
empty string yields `[""]`. -/
def splitChars (sep : Char) : List Char → List Char × List (List Char)
  | [] => ([], [])
  | c :: cs =>
    let pr := splitChars sep cs
    if c == sep then ([], pr.1 :: pr.2) else (c :: pr.1, pr.2)

/-- JS `s.split(sep)` for a single-character separator. -/
def jsSplit (sep : Char) (s : String) : List String :=
  let pr := splitChars sep s.data
  (pr.1 :: pr.2).map String.mk

/-- Translates `parseWhereKey` (BaseService.ts lines 613-619):
`const parts = key.split('_'); const attr = parts[0];
const operator = parts.length > 1 ? parts[1] : 'eq';`. -/
def parseWhereKey (key : String) : String × String :=
  let parts := jsSplit '_' key
  (parts.getD 0 "", if parts.length > 1 then parts.getD 1 "eq" else "eq")

/-- A `WhereExpression` (BaseService.ts lines 580-584): boolean combinator
lists `AND` / `OR` / `NOT` together with the remaining leaf filter entries, in
insertion order. -/
inductive WhereExpr where
  | node (ands ors nots : List WhereExpr) (leaves : List (String × LeafVal))

/-- The empty where object. -/
def emptyWhere : WhereExpr := .node [] [] [] []

/-- A where object with no keys at all (JS `JSON.stringify(value) === '\x7b\x7d'` /
`Object.keys(value).length === 0`). -/
def isEmptyObj : WhereExpr → Bool
  | .node ands ors nots leaves =>
    ands.isEmpty && ors.isEmpty && nots.isEmpty && leaves.isEmpty

/-- Translates the soft-delete policy of `buildFindQuery`
(BaseService.ts lines 810-823).  The source mutates the caller's `where`
object in place; the model returns the object's post-call contents.
`Object.keys(where)` includes the `AND`/`OR`/`NOT` keys, but none of those
begins with `deletedAt_`, so scanning the leaf keys is equivalent. -/
def applyDeletedAtPolicy : WhereExpr → WhereExpr
  | .node ands ors nots leaves =>
    let hasDeletedAts := leaves.any (fun kv => strStarts "deletedAt_" kv.1)
    if !hasDeletedAts then
      -- `where.deletedAt_eq = null` appends a new key (none was present)
      .node ands ors nots (leaves ++ [("deletedAt_eq", LeafVal.scalar Value.vnull)])
    else if leaves.any (fun kv => kv.1 == "deletedAt_all") then
      -- `delete where.deletedAt_all` (even when `deletedAt_all: false`)
      .node ands ors nots (leaves.filter (fun kv => kv.1 != "deletedAt_all"))
    else
      .node ands ors nots leaves

/-- Per-entity column metadata as consumed from TypeORM (external collaborator). -/
structure ColumnMetadata where
  propertyPath : String
  databasePath : String
deriving DecidableEq, Repr

/-- Translates `createColumnMap` (BaseService.ts lines 606-611): the reduce
into a string map becomes an association list.  Property paths are unique per
entity, so first-match lookup agrees with the JS object. -/
def createColumnMap (columns : List ColumnMetadata) : List (String × String) :=
  columns.map (fun column => (column.propertyPath, column.databasePath))

/-- JS object lookup `map[key]` returning `undefined` as `none`. -/
def smLookup (m : List (String × String)) (k : String) : Option String :=
  (m.find? (fun kv => kv.1 == k)).map (fun kv => kv.2)

/-- JS template-string interpolation of `map[key]`: a missing key prints as
`undefined`. -/
def jsIndex (m : List (String × String)) (k : String) : String :=
  (smLookup m k).getD "undefined"

/-- The SQL-quoted pair `"a"."b"` used throughout the source for column
references. -/
def quote2 (a b : String) : String :=
  "\"" ++ a ++ "\".\"" ++ b ++ "\""

/-- The per-service state `BaseService` reads while building queries: the
lower-cased entity name (`klass`) and the cached column map. -/
structure ServiceInfo where
  klass : String
  columnMap : List (String × String)

/-- Sort direction of one order-by key. -/
inductive SortDir where
  | asc
  | desc
deriving DecidableEq, Repr

/-- Translates the order-by parsing inside `buildFindQuery`
(lines 800-807): `const parts = orderByItem.split('_'); const attr = parts[0];
const direction = parts[1] as 'ASC' | 'DESC'`.  A missing direction reaches
TypeORM's `addOrderBy` as `undefined` and defaults to ascending.  The query
records the logical attribute; the `attrToDBColumn` renaming through the
column map is injective and is treated as applied by the store. -/
def parseOrderItem (orderByItem : String) : String × SortDir :=
  let parts := jsSplit '_' orderByItem
  (parts.getD 0 "", if parts.getD 1 "" == "DESC" then SortDir.desc else SortDir.asc)

/-- The composable select query `buildFindQuery` assembles: limit, offset,
projected fields, order-by keys and the final (policy-rewritten) predicate
tree. -/
structure FindQuery where
  limit : Nat
  offset : Option Nat
  select : Option (List String)
  orderBy : List (String × SortDir)
  whereFinal : WhereExpr

/-- The `{limit, offset}` page options shape. -/
structure LimitOffset where
  limit : Nat
  offset : Option Nat

/-- Everything `buildFindQuery` leaves behind: the built query plus the
post-call contents of the two caller-supplied objects it mutates in place
(the `where` object and the `fields` array). -/
structure BuildResult where
  query : FindQuery
  whereOut : WhereExpr
  fieldsOut : Option (List String)

/-- Translates `buildFindQuery` (BaseService.ts lines 757-941).
`DEFAULT_LIMIT = 50`; `qb.limit(pageOptions.limit || DEFAULT_LIMIT)` maps a
falsy (zero) limit to 50; `if (pageOptions.offset)` leaves a falsy offset
unset, which the store executes as offset 0; `fields.push('id')` mutates the
caller's array before the column-map filter builds the selection. -/
def buildFindQuery (svc : ServiceInfo) (whereIn : WhereExpr)
    (orderBy : List String) (pageOptions : Option LimitOffset)
    (fields : Option (List String)) : BuildResult :=
  let pageOptions : LimitOffset := match pageOptions with
    | none => { limit := 50, offset := none }
    | some po => po
  let qLimit := if pageOptions.limit == 0 then 50 else pageOptions.limit
  let fieldsOut := fields.map (fun fs => if fs.contains "id" then fs else fs ++ ["id"])
  let select := fieldsOut.map (fun fs =>
    fs.filter (fun field => (smLookup svc.columnMap field).getD "" != ""))
  let qOrder := orderBy.map parseOrderItem
  let whereOut := applyDeletedAtPolicy whereIn
  { query := { limit := qLimit, offset := pageOptions.offset, select := select,
               orderBy := qOrder, whereFinal := whereOut }
    whereOut := whereOut
    fieldsOut := fieldsOut }

/-- How the store decides one leaf predicate `attr operator value` against a
row.  The leaf compiler (`addQueryBuilderWhereItem` in `src/torm`, not part of
the bundled sources) is kept abstract: the claims settled through the store
semantics do not depend on the individual operators. -/
abbrev LeafMatcher := String → String → LeafVal → Row → Bool

mutual

/-- Denotation of the predicate tree compiled by `processWhereInput`
(BaseService.ts lines 876-934): members of `AND` are conjoined, members of
`OR` are disjoined, members of `NOT` are negated and conjoined, leaf filters
are conjoined, and sub-expressions serializing to an empty object are
discarded before being combined (`handleConditions` filters them out, so an
`OR` group ranges only over its non-empty members). -/
def evalWhere (lm : LeafMatcher) (row : Row) : WhereExpr → Bool
  | .node ands ors nots leaves =>
    andsHold lm row ands
      && (!(ors.any (fun w => !(isEmptyObj w))) || orsHold lm row ors)
      && notsHold lm row nots
      && leaves.all (fun kv =>
          let pk := parseWhereKey kv.1
          lm pk.1 pk.2 kv.2 row)

/-- Conjunction over the non-empty members of an `AND` list. -/
def andsHold (lm : LeafMatcher) (row : Row) : List WhereExpr → Bool
  | [] => true
  | w :: ws => (if isEmptyObj w then true else evalWhere lm row w) && andsHold lm row ws

/-- Disjunction over the non-empty members of an `OR` list. -/
def orsHold (lm : LeafMatcher) (row : Row) : List WhereExpr → Bool
  | [] => false
  | w :: ws => (if isEmptyObj w then false else evalWhere lm row w) || orsHold lm row ws

/-- Conjunction of the negations of the non-empty members of a `NOT` list. -/
def notsHold (lm : LeafMatcher) (row : Row) : List WhereExpr → Bool
  | [] => true
  | w :: ws => (if isEmptyObj w then true else !(evalWhere lm row w)) && notsHold lm row ws

end

/-- Reverse an `Ordering` (used for `DESC` sort keys). -/
def flipOrd : Ordering → Ordering
  | .lt => .gt
  | .gt => .lt
  | .eq => .eq

/-- A total order on scalar values for the store's ORDER BY: nulls first,
then numbers, then strings (the claims never compare across kinds). -/
def valueCompare : Value → Value → Ordering
  | .vnull, .vnull => .eq
  | .vnull, _ => .lt
  | _, .vnull => .gt
  | .vint a, .vint b => compare a b
  | .vint _, .vstr _ => .lt
  | .vstr _, .vint _ => .gt
  | .vstr a, .vstr b => compare a b

/-- Lexicographic multi-key comparison of two rows under an order-by list,
mirroring the chained `addOrderBy` calls: the first key decides, ties fall to
the later keys, remaining ties compare equal. -/
def rowCompare : List (String × SortDir) → Row → Row → Ordering
  | [], _, _ => .eq
  | (attr, dir) :: rest, a, b =>
    let va := (rowLookup a attr).getD Value.vnull
    let vb := (rowLookup b attr).getD Value.vnull
    let c := match dir with
      | .asc => valueCompare va vb
      | .desc => flipOrd (valueCompare va vb)
    match c with
    | .eq => rowCompare rest a b
    | c => c

/-- Row comparison as a boolean `at most` relation. -/
def rowLe (order : List (String × SortDir)) (a b : Row) : Bool :=
  !(rowCompare order a b == Ordering.gt)

/-- Stable insertion into a sorted list. -/
def insertSorted (le : Row → Row → Bool) (x : Row) : List Row → List Row
  | [] => [x]
  | y :: ys => if le x y then x :: y :: ys else y :: insertSorted le x ys

/-- Stable sort of the result set under the query's order-by keys (the store
sorts; with no order-by keys every comparison ties and the store order is
kept). -/
def sortRows (order : List (String × SortDir)) : List Row → List Row
  | [] => []
  | x :: xs => insertSorted (rowLe order) x (sortRows order xs)

/-- The store executing `qb.getMany()`: filter by the compiled predicate,
sort, apply offset and limit.  An unset offset behaves as offset 0. -/
def execFind (lm : LeafMatcher) (store : List Row) (q : FindQuery) : List Row :=
  (((sortRows q.orderBy (store.filter (fun r => evalWhere lm r q.whereFinal))).drop
    (q.offset.getD 0)).take q.limit)

/-- The store executing `qb.getCount()`: TypeORM's count query clones the
builder and clears order-by, group-by, offset, limit, skip and take, so the
count sees every row matching the predicate. -/
def getCount (lm : LeafMatcher) (store : List Row) (q : FindQuery) : Nat :=
  (store.filter (fun r => evalWhere lm r q.whereFinal)).length

/-- Translates `find` (BaseService.ts lines 673-684): `limit = limit ?? 20`
then `buildFindQuery(where, orderBy, \x7b limit, offset \x7d, fields).getMany()`. -/
def find (lm : LeafMatcher) (store : List Row) (svc : ServiceInfo)
    (whereIn : WhereExpr) (orderBy : List String) (limit : Option Nat)
    (offset : Option Nat) (fields : Option (List String)) : List Row :=
  let limit := limit.getD 20
  execFind lm store
    (buildFindQuery svc whereIn orderBy (some { limit := limit, offset := offset }) fields).query

/-- The two failure kinds of `findOne`: `Unable to find ... where ...`
and `Found N ...s where ...`. -/
inductive FindOneError where
  | notFound
  | ambiguous
deriving DecidableEq, Repr

/-- Translates `findOne` (BaseService.ts lines 943-957): delegate to `find`
with only the filter set, then fail on zero matches, fail on more than one
match, and return `items[0]` otherwise. -/
def findOne (lm : LeafMatcher) (store : List Row) (svc : ServiceInfo)
    (whereIn : WhereExpr) : Except FindOneError Row :=
  let items := find lm store svc whereIn [] none none none
  if items.isEmpty then
    .error FindOneError.notFound
  else if items.length > 1 then
    .error FindOneError.ambiguous
  else
    .ok (items.headD [])

/-- The `RelayPageOptionsInput` shape (BaseService.ts lines 593-598).
Cursors are modelled in decoded form, as the tuple of sort-key values they
encode (spec section 4.4: `decode(encode(x))` reproduces the tuple exactly). -/
structure RelayPageOptionsInput where
  first : Option Nat := none
  after : Option (List Value) := none
  last : Option Nat := none
  before : Option (List Value) := none

/-- Translates `isLastBefore` (BaseService.ts lines 600-604):
`(pageType as RelayLastBefore).last !== undefined`. -/
def isLastBefore (pageType : RelayPageOptionsInput) : Bool :=
  pageType.last.isSome

/-- The resolved relay page options `findConnection` hands to the relay
service, with the limit already defaulted. -/
inductive RelayPageOptions where
  | firstAfter (first : Nat) (after : Option (List Value))
  | lastBefore (last : Nat) (before : Option (List Value))

/-- JS `x || DEFAULT_LIMIT` with `DEFAULT_LIMIT = 50`: both an absent and a
zero (falsy) limit fall back to 50. -/
def jsOr50 : Option Nat → Nat
  | none => 50
  | some n => if n == 0 then 50 else n

/-- Render one sort key back to the `attr_ASC` / `attr_DESC` string form. -/
def sortToString (s : String × SortDir) : String :=
  s.1 ++ "_" ++ (match s.2 with | .asc => "ASC" | .desc => "DESC")

/-- Modelled from the spec: `RelayService.normalizeSort` (not among the
bundled sources).  Spec section 4.4: normalize the sort-key list, defaulting
to a single implementation-defined key if none is given and always appending
a final unique tie-breaker (the identifier) when the caller's keys do not
already include it. -/
def normalizeSort (orderBy : List String) : List (String × SortDir) :=
  let parsed := orderBy.map parseOrderItem
  if parsed.isEmpty then [("id", SortDir.asc)]
  else if parsed.any (fun s => s.1 == "id") then parsed
  else parsed ++ [("id", SortDir.asc)]

/-- Reverse every sort direction (spec section 4.4: backward pagination
requests rows in reverse sort order). -/
def flipDirs (sorts : List (String × SortDir)) : List (String × SortDir) :=
  sorts.map (fun s => (s.1, match s.2 with | .asc => SortDir.desc | .desc => SortDir.asc))

/-- Modelled from the spec: `RelayService.effectiveOrderStrings` (not among
the bundled sources).  For `last`/`before` the rows are requested in reverse
sort order; otherwise the requested order is used as-is. -/
def effectiveOrderStrings (sorts : List (String × SortDir))
    (po : RelayPageOptions) : List String :=
  (match po with
    | .lastBefore _ _ => flipDirs sorts
    | .firstAfter _ _ => sorts).map sortToString

/-- Prepend an equality leaf to a where object (building one disjunct of the
lexicographic cursor predicate). -/
def prependEqLeaf (k : String) (v : Value) : WhereExpr → WhereExpr
  | .node ands ors nots leaves => .node ands ors nots ((k, LeafVal.scalar v) :: leaves)

/-- The disjuncts of the lexicographic `strictly after/before this tuple`
predicate: `(k1 > v1) OR (k1 = v1 AND k2 > v2) OR ...`, with the comparison
flipped on descending keys and inverted for backward pagination. -/
def lexBranches (invert : Bool) : List ((String × SortDir) × Value) → List WhereExpr
  | [] => []
  | (s, v) :: rest =>
    let cmpOp := if (s.2 == SortDir.desc) != invert then "lt" else "gt"
    WhereExpr.node [] [] [] [(s.1 ++ "_" ++ cmpOp, LeafVal.scalar v)] ::
      (lexBranches invert rest).map (prependEqLeaf (s.1 ++ "_eq") v)

/-- Modelled from the spec: `RelayService.getFilters` (not among the bundled
sources).  Spec section 4.4: decode the cursor into its sort-key value tuple
and derive the boundary predicate by lexicographic comparison across the
multi-key tuple, inverted for backward pagination. -/
def getFilters (orderBy : List String) (po : RelayPageOptions) : WhereExpr :=
  let sorts := normalizeSort orderBy
  match po with
  | .firstAfter _ (some c) => .node [] (lexBranches false (sorts.zip c)) [] []
  | .lastBefore _ (some c) => .node [] (lexBranches true (sorts.zip c)) [] []
  | _ => emptyWhere

/-- Modelled from the spec: `RelayService.encodeCursor` (not among the
bundled sources).  A cursor encodes the tuple of the row's sort-key values;
the opaque string encoding is dropped and the tuple kept, which preserves the
spec's round-trip invariant by construction. -/
def encodeCursor (item : Row) (sorts : List (String × SortDir)) : List Value :=
  sorts.map (fun s => (rowLookup item s.1).getD Value.vnull)

/-- The `pageInfo` component of a connection result. -/
structure PageInfo where
  hasNextPage : Bool
  hasPreviousPage : Bool
  startCursor : List Value
  endCursor : List Value
deriving Repr

/-- Modelled from the spec: `RelayService.getPageInfo` (not among the bundled
sources).  Spec section 4.4: the further-page flag is reported from whether
the over-fetched `(n+1)`-th row existed, and the boundary cursors encode the
first and last returned rows' sort-key tuples. -/
def getPageInfo (rawData : List Row) (sorts : List (String × SortDir))
    (po : RelayPageOptions) : PageInfo :=
  let limit := match po with
    | .firstAfter limit _ => limit
    | .lastBefore limit _ => limit
  let hasMore := decide (rawData.length > limit)
  let returnData := if rawData.length > limit then rawData.take limit else rawData
  { hasNextPage := match po with
      | .firstAfter _ _ => hasMore
      | .lastBefore _ _ => false
    hasPreviousPage := match po with
      | .firstAfter _ _ => false
      | .lastBefore _ _ => hasMore
    startCursor := (returnData.head?.map (fun r => encodeCursor r sorts)).getD []
    endCursor := (returnData.getLast?.map (fun r => encodeCursor r sorts)).getD [] }

/-- Modelled from the spec: the outcome of
`GraphQLInfoService.connectionOptions` (not among the bundled sources) - which
connection fields the caller requested, already projected to the select list
and the total-count flag. -/
structure RequestedFields where
  totalCount : Bool
  selectFields : Option (List String)

/-- One edge of a connection result. -/
structure ConnectionEdge where
  node : Row
  cursor : List Value

/-- The connection result envelope. -/
structure ConnectionResult where
  totalCount : Option Nat
  edges : List ConnectionEdge
  pageInfo : PageInfo

/-- The limit `findConnection` resolves from its page options
(`last || DEFAULT_LIMIT` when `last` is present, else `first || DEFAULT_LIMIT`). -/
def findConnectionLimit (pageOpts : RelayPageOptionsInput) : Nat :=
  if isLastBefore pageOpts then jsOr50 pageOpts.last else jsOr50 pageOpts.first

/-- The resolved relay page options (`relayPageOptions` in the source). -/
def findConnectionRelayOptions (pageOpts : RelayPageOptionsInput) : RelayPageOptions :=
  if isLastBefore pageOpts then
    .lastBefore (findConnectionLimit pageOpts) pageOpts.before
  else
    .firstAfter (findConnectionLimit pageOpts) pageOpts.after

/-- The select query `findConnection` builds (BaseService.ts lines 718-732):
the user filter is AND-combined with the cursor-derived filter, the effective
(possibly reversed) order strings are applied, and one row more than the
limit is requested. -/
def findConnectionQuery (svc : ServiceInfo) (whereUserInput : WhereExpr)
    (orderBy : List String) (pageOpts : RelayPageOptionsInput)
    (requestedFields : RequestedFields) : FindQuery :=
  let limit := findConnectionLimit pageOpts
  let cursor := if isLastBefore pageOpts then pageOpts.before else pageOpts.after
  let relayPageOptions := findConnectionRelayOptions pageOpts
  let sorts := normalizeSort orderBy
  let whereFromCursor := match cursor with
    | some _ => getFilters orderBy relayPageOptions
    | none => emptyWhere
  let whereCombined := WhereExpr.node [whereUserInput, whereFromCursor] [] [] []
  (buildFindQuery svc whereCombined (effectiveOrderStrings sorts relayPageOptions)
    (some { limit := limit + 1, offset := none }) requestedFields.selectFields).query

/-- Translates `findConnection` (BaseService.ts lines 687-755): resolve the
page mode and limit, over-fetch by one row, compute the total count (when
requested) by a separate count query over only the user's filter, truncate the
over-fetched row off, and assemble edges and page info.  The raw rows are
mapped to edges in store order - the source performs no re-reversal. -/
def findConnection (lm : LeafMatcher) (store : List Row) (svc : ServiceInfo)
    (whereUserInput : WhereExpr) (orderBy : List String)
    (pageOpts : RelayPageOptionsInput) (requestedFields : RequestedFields) :
    ConnectionResult :=
  let limit := findConnectionLimit pageOpts
  let relayPageOptions := findConnectionRelayOptions pageOpts
  let sorts := normalizeSort orderBy
  let totalCountOption :=
    if requestedFields.totalCount then
      some (getCount lm store (buildFindQuery svc whereUserInput [] none none).query)
    else none
  let rawData := execFind lm store (findConnectionQuery svc whereUserInput orderBy pageOpts requestedFields)
  let returnData := if rawData.length > limit then rawData.take limit else rawData
  { totalCount := totalCountOption
    edges := returnData.map (fun item =>
      { node := item, cursor := encodeCursor item sorts })
    pageInfo := getPageInfo rawData sorts relayPageOptions }

/-- The relation metadata `RelationsManager` consumes from TypeORM (external
collaborator): name, cardinality string, owning side, the related entity's
table and columns, and the join-column bookkeeping for the junction-table
path. -/
structure RelationMetadata where
  propertyName : String
  relationType : String
  isOwning : Bool := false
  inverseTableName : String := ""
  inverseColumns : List ColumnMetadata := []
  inverseJoinColumnProperty : String := ""
  junctionTableName : String := ""
  joinColumnNames : List String := []
  inverseJoinColumnNames : List String := []
  invRelJoinColumnNames : List String := []
  invRelInverseJoinColumnNames : List String := []

/-- One parameterized leaf predicate pushed onto a query builder (one
`expressionMap.wheres` entry). -/
structure WhereCondItem where
  paramKey : String
  column : String
  op : String
  value : Value
deriving DecidableEq, Repr

/-- One `leftJoin(table, alias, condition)` call. -/
structure Join where
  table : String
  joinAlias : String
  condition : String
deriving DecidableEq, Repr

/-- The HAVING clauses `RelationsManager` emits: `COUNT(CASE WHEN cond THEN 1
ELSE NULL END) = 0` for `none`, and the pair `COUNT(fid) = COUNT(CASE WHEN
cond THEN 1 ELSE NULL END)` / `COUNT(fid) > 1` for `every`. -/
inductive HavingCond where
  | noneCount (cond : WhereCondItem)
  | everyCount (foreignIdColumn : String) (cond : WhereCondItem)
  | countGtOne (foreignIdColumn : String)
deriving DecidableEq, Repr

/-- The mutable pieces of a TypeORM `SelectQueryBuilder` the resolver touches. -/
structure QBState where
  joins : List Join := []
  wheres : List WhereCondItem := []
  havings : List HavingCond := []
  groupBys : List String := []
deriving DecidableEq, Repr

/-- A query builder with nothing on it yet (`qb.createQueryBuilder()`). -/
def emptyQB : QBState := {}

/-- The state the resolver threads: the outermost builder (`topLevelQb`), the
builder receiving predicates (`qb` - a nested bracket builder inside combinator
groups), the `paramKeyCounter`, and a fresh-name supply standing in for the
random `shortid.generate()` table aliases. -/
structure RelState where
  top : QBState := {}
  qb : QBState := {}
  counter : Nat := 0
  aliasCounter : Nat := 0

/-- The arguments of `RelationsManager.processWhereRelation`
(BaseService.ts lines 1060-1071), minus the builders and counter, which live
in `RelState`. -/
structure WhereRelationParameters where
  attr : String
  operator : String
  whereParameter : List (String × Value)
  relations : List RelationMetadata
  baseService : ServiceInfo

/-- Modelled from the spec: `addQueryBuilderWhereItem` (`src/torm`, not among
the bundled sources) compiles one leaf filter into a parameterized predicate
and ands it onto the builder; the model records the predicate as data. -/
def addQueryBuilderWhereItem (qb : QBState) (paramKey column op : String)
    (value : Value) : QBState :=
  { qb with wheres := qb.wheres ++ [{ paramKey := paramKey, column := column, op := op, value := value }] }

/-- The predicates `addWhereCondition` compiles, one per key of the nested
where object, each with a fresh `param<counter>` name
(BaseService.ts lines 1349-1361). -/
def compileWhereItems (foreignTableName : String)
    (foreignColumnMap : List (String × String)) (counter : Nat) :
    List (String × Value) → List WhereCondItem × Nat
  | [] => ([], counter)
  | item :: rest =>
    let pk := parseWhereKey item.1
    let whereColumn := quote2 foreignTableName (jsIndex foreignColumnMap pk.1)
    let compiled : WhereCondItem :=
      { paramKey := "param" ++ toString counter, column := whereColumn,
        op := pk.2, value := item.2 }
    let restRes := compileWhereItems foreignTableName foreignColumnMap (counter + 1) rest
    (compiled :: restRes.1, restRes.2)

/-- Translates `RelationsManager.addWhereCondition` (lines 1343-1365): add one
where condition per conditioned property of the related entity to `qb`, then
`topLevelQb.groupBy` the parent identifier (TypeORM's `groupBy` replaces any
previous group-by). -/
def addWhereCondition (p : WhereRelationParameters) (top qb : QBState)
    (counter : Nat) (foreignTableName : String)
    (foreignColumnMap : List (String × String)) : QBState × QBState × Nat :=
  let compiled := compileWhereItems foreignTableName foreignColumnMap counter p.whereParameter
  ({ top with groupBys := ["\"" ++ p.baseService.klass ++ "\".id"] },
   { qb with wheres := qb.wheres ++ compiled.1 },
   compiled.2)

/-- What `RelationsManager.common` leaves behind: both builders, both
counters and the generated foreign-table alias. -/
structure CommonResult where
  top : QBState
  qb : QBState
  counter : Nat
  aliasCounter : Nat
  foreignTableAlias : String

/-- Translates `RelationsManager.common` (lines 1319-1338): generate a fresh
alias, left-join the foreign table on the outermost builder (a join on `qb`
would be ignored in some composition paths), then delegate to
`addWhereCondition`. -/
def common (p : WhereRelationParameters) (top qb : QBState)
    (counter aliasCounter : Nat) (localIdColumn foreignTableName : String)
    (foreignColumnMap : List (String × String)) (foreignColumnName : String) :
    CommonResult :=
  let foreignTableAlias := "alias" ++ toString aliasCounter
  let foreingIdColumn := quote2 foreignTableAlias (jsIndex foreignColumnMap foreignColumnName)
  let top := { top with joins := top.joins ++
    [{ table := foreignTableName, joinAlias := foreignTableAlias,
       condition := localIdColumn ++ " = " ++ foreingIdColumn }] }
  let r := addWhereCondition p top qb counter foreignTableAlias foreignColumnMap
  { top := r.1, qb := r.2.1, counter := r.2.2, aliasCounter := aliasCounter + 1,
    foreignTableAlias := foreignTableAlias }

/-- Translates `RelationsManager.processWhereRelationManyToOne`
(lines 1117-1131). -/
def processWhereRelationManyToOne (p : WhereRelationParameters)
    (relation : RelationMetadata) (foreignColumnMap : List (String × String))
    (st : RelState) : RelState :=
  let foreignTableName := relation.inverseTableName
  let localIdColumn := quote2 p.baseService.klass (jsIndex p.baseService.columnMap (p.attr ++ "Id"))
  let foreignColumnName := "id"
  let r := common p st.top st.qb st.counter st.aliasCounter localIdColumn
    foreignTableName foreignColumnMap foreignColumnName
  { top := r.top, qb := r.qb, counter := r.counter, aliasCounter := r.aliasCounter }

/-- Translates `RelationsManager.processWhereRelationOneToMany`
(lines 1136-1203).  For `none` and `every` the nested predicate is compiled
on a throwaway builder whose first where entry feeds the HAVING clause; with
an empty nested filter that entry does not exist and the JS code raises a
`TypeError` reading `wheres[0].condition`. -/
def processWhereRelationOneToMany (p : WhereRelationParameters)
    (relation : RelationMetadata) (foreignColumnMap : List (String × String))
    (st : RelState) : Except String RelState :=
  let foreignTableName := relation.inverseTableName
  let localIdColumn := quote2 p.baseService.klass "id"
  let foreignColumnName := relation.inverseJoinColumnProperty
  if p.operator == "some" then
    let r := common p st.top st.qb st.counter st.aliasCounter localIdColumn
      foreignTableName foreignColumnMap foreignColumnName
    .ok { top := r.top, qb := r.qb, counter := r.counter, aliasCounter := r.aliasCounter }
  else if p.operator == "none" then
    let tmp := common p st.top emptyQB st.counter st.aliasCounter localIdColumn
      foreignTableName foreignColumnMap foreignColumnName
    match tmp.qb.wheres.head? with
    | none => .error "TypeError: tmpQb.expressionMap.wheres[0] is undefined"
    | some w0 =>
      .ok { top := tmp.top,
            qb := { st.qb with havings := st.qb.havings ++ [HavingCond.noneCount w0] },
            counter := tmp.counter, aliasCounter := tmp.aliasCounter }
  else if p.operator == "every" then
    let tmp := common p st.top emptyQB st.counter st.aliasCounter localIdColumn
      foreignTableName foreignColumnMap foreignColumnName
    let foreingIdColumn := quote2 tmp.foreignTableAlias (jsIndex foreignColumnMap foreignColumnName)
    match tmp.qb.wheres.head? with
    | none => .error "TypeError: tmpQb.expressionMap.wheres[0] is undefined"
    | some w0 =>
      .ok { top := tmp.top,
            qb := { st.qb with havings := st.qb.havings ++
              [HavingCond.everyCount foreingIdColumn w0,
               HavingCond.countGtOne foreingIdColumn] },
            counter := tmp.counter, aliasCounter := tmp.aliasCounter }
  else
    .error ("Unknown many-to-one operator \"" ++ p.operator ++ "\"")

/-- Translates `RelationsManager.processWhereRelationOneToOne`
(lines 1208-1226): the owning side is handled like many-to-one, the
non-owning side like the plain join of one-to-many's `some`. -/
def processWhereRelationOneToOne (p : WhereRelationParameters)
    (relation : RelationMetadata) (foreignColumnMap : List (String × String))
    (st : RelState) : RelState :=
  if relation.isOwning then
    processWhereRelationManyToOne p relation foreignColumnMap st
  else
    let foreignTableName := relation.inverseTableName
    let localIdColumn := quote2 p.baseService.klass "id"
    let foreignColumnName := relation.inverseJoinColumnProperty
    let r := common p st.top st.qb st.counter st.aliasCounter localIdColumn
      foreignTableName foreignColumnMap foreignColumnName
    { top := r.top, qb := r.qb, counter := r.counter, aliasCounter := r.aliasCounter }

/-- Translates `RelationsManager.processWhereRelationManyToMany`
(lines 1231-1314): two top-level joins through the junction table, then the
same `some` / `none` / `every` dispatch as one-to-many, with the foreign
identifier referenced as `"<foreignTable>"."id"`. -/
def processWhereRelationManyToMany (p : WhereRelationParameters)
    (relation : RelationMetadata) (foreignColumnMap : List (String × String))
    (st : RelState) : Except String RelState :=
  let localIdColumn := quote2 p.baseService.klass "id"
  let junctionTableName := relation.junctionTableName
  let foreignTableName := relation.inverseTableName
  let foreingIdColumn := quote2 foreignTableName "id"
  let junctionLocalIdColumn := match relation.joinColumnNames with
    | n :: _ => n
    | [] => relation.invRelInverseJoinColumnNames.headD "undefined"
  let junctionForeignIdColumn := match relation.inverseJoinColumnNames with
    | n :: _ => n
    | [] => relation.invRelJoinColumnNames.headD "undefined"
  let st := { st with top := { st.top with joins := st.top.joins ++
    ([{ table := junctionTableName, joinAlias := junctionTableName,
        condition := localIdColumn ++ " = " ++ junctionLocalIdColumn },
      { table := foreignTableName, joinAlias := foreignTableName,
        condition := junctionForeignIdColumn ++ " = " ++ foreingIdColumn }] : List Join) } }
  if p.operator == "some" then
    let r := addWhereCondition p st.top st.qb st.counter foreignTableName foreignColumnMap
    .ok { st with top := r.1, qb := r.2.1, counter := r.2.2 }
  else if p.operator == "none" then
    let r := addWhereCondition p st.top emptyQB st.counter foreignTableName foreignColumnMap
    match r.2.1.wheres.head? with
    | none => .error "TypeError: tmpQb.expressionMap.wheres[0] is undefined"
    | some w0 =>
      .ok { st with
              top := r.1,
              qb := { st.qb with havings := st.qb.havings ++ [HavingCond.noneCount w0] },
              counter := r.2.2 }
  else if p.operator == "every" then
    let r := addWhereCondition p st.top emptyQB st.counter foreignTableName foreignColumnMap
    match r.2.1.wheres.head? with
    | none => .error "TypeError: tmpQb.expressionMap.wheres[0] is undefined"
    | some w0 =>
      .ok { st with
              top := r.1,
              qb := { st.qb with havings := st.qb.havings ++
                [HavingCond.everyCount foreingIdColumn w0,
                 HavingCond.countGtOne foreingIdColumn] },
              counter := r.2.2 }
  else
    .error ("Unknown many-to-many operator \"" ++ p.operator ++ "\"")

/-- Translates `RelationsManager.processWhereRelation` (lines 1077-1112):
look the attribute up among the relations (returning `false` - scalar
fallthrough - when it is not one), dispatch on the cardinality string, and
throw on an unknown cardinality. -/
def processWhereRelation (p : WhereRelationParameters) (st : RelState) :
    Except String (Bool × RelState) :=
  match p.relations.find? (fun item => item.propertyName == p.attr) with
  | none => .ok (false, st)
  | some relation =>
    let foreignColumnMap := createColumnMap relation.inverseColumns
    if relation.relationType == "one-to-many" then
      (processWhereRelationOneToMany p relation foreignColumnMap st).map (fun st' => (true, st'))
    else if relation.relationType == "many-to-one" then
      .ok (true, processWhereRelationManyToOne p relation foreignColumnMap st)
    else if relation.relationType == "one-to-one" then
      .ok (true, processWhereRelationOneToOne p relation foreignColumnMap st)
    else if relation.relationType == "many-to-many" then
      (processWhereRelationManyToMany p relation foreignColumnMap st).map (fun st' => (true, st'))
    else
      .error ("Unknown relation type \"" ++ relation.relationType ++ "\"")

/-- Semantics of one HAVING clause over the group of related rows of one
parent (a parent with no related rows contributes a single all-NULL joined
row, so `COUNT(fid)` is the number of related rows in every case):
`COUNT(CASE WHEN cond THEN 1 ELSE NULL END)` counts the related rows
satisfying the compiled condition. -/
def evalHaving (matcher : WhereCondItem → Row → Bool) (relatedRows : List Row) :
    HavingCond → Bool
  | .noneCount cond => (relatedRows.filter (matcher cond)).length == 0
  | .everyCount _ cond => relatedRows.length == (relatedRows.filter (matcher cond)).length
  | .countGtOne _ => decide (relatedRows.length > 1)

/-- A parent's group satisfies a HAVING list when it satisfies every clause. -/
def evalHavings (matcher : WhereCondItem → Row → Bool) (relatedRows : List Row)
    (hs : List HavingCond) : Bool :=
  hs.all (evalHaving matcher relatedRows)

/-- Membership of a character in a character list, used to state which filter
keys contain the `_` delimiter. -/
def hasChar (c : Char) : List Char → Bool
  | [] => false
  | d :: ds => d == c || hasChar c ds

/-- A demonstration service for concrete instances. -/
def svcDemo : ServiceInfo :=
  { klass := "book",
    columnMap := [("id", "id"), ("name", "name"), ("deletedAt", "deleted_at")] }

/-- A demonstration leaf matcher for concrete instances: equality against the
row's attribute, a missing attribute reading as null. -/
def lmDemo : LeafMatcher := fun attr op v row =>
  match op, v with
  | "eq", .scalar x => (rowLookup row attr).getD Value.vnull == x
  | _, _ => false

section Lemmas

theorem splitChars_fst (sep : Char) (l : List Char) :
    (splitChars sep l).1 = l.takeWhile (fun c => !(c == sep)) := by
  induction l with
  | nil => rfl
  | cons c cs ih =>
    by_cases h : (c == sep) = true
    · simp [splitChars, h, List.takeWhile_cons]
    · simp only [Bool.not_eq_true] at h
      simp [splitChars, h, List.takeWhile_cons, ih]

theorem splitChars_snd_nil (sep : Char) (l : List Char)
    (h : hasChar sep l = false) : (splitChars sep l).2 = [] := by
  induction l with
  | nil => rfl
  | cons c cs ih =>
    simp only [hasChar, Bool.or_eq_false_iff] at h
    simp [splitChars, h.1, ih h.2]

theorem splitChars_snd_head (sep : Char) (l : List Char)
    (h : hasChar sep l = true) :
    (splitChars sep l).2.head?
      = some (((l.dropWhile (fun c => !(c == sep))).tail).takeWhile (fun c => !(c == sep))) := by
  induction l with
  | nil => simp [hasChar] at h
  | cons c cs ih =>
    by_cases hc : (c == sep) = true
    · simp [splitChars, hc, List.dropWhile_cons, splitChars_fst]
    · simp only [hasChar, hc, Bool.false_or] at h
      simp only [Bool.not_eq_true] at hc
      simp [splitChars, hc, List.dropWhile_cons, ih h]

theorem takeWhile_of_not_has (sep : Char) (l : List Char)
    (h : hasChar sep l = false) : l.takeWhile (fun c => !(c == sep)) = l := by
  induction l with
  | nil => rfl
  | cons c cs ih =>
    simp only [hasChar, Bool.or_eq_false_iff] at h
    simp [List.takeWhile_cons, h.1, ih h.2]

theorem any_eq_false_of_all_not {α} (p : α → Bool) (l : List α)
    (h : l.all (fun x => !(p x)) = true) : l.any p = false := by
  rw [List.any_eq_false]
  intro x hx
  have := (List.all_eq_true.mp h) x hx
  simp at this
  simp [this]

theorem length_insertSorted (le : Row → Row → Bool) (x : Row) (l : List Row) :
    (insertSorted le x l).length = l.length + 1 := by
  induction l with
  | nil => rfl
  | cons y ys ih =>
    by_cases h : le x y = true
    · simp [insertSorted, h]
    · simp only [Bool.not_eq_true] at h
      simp [insertSorted, h, ih]

theorem length_sortRows (order : List (String × SortDir)) (l : List Row) :
    (sortRows order l).length = l.length := by
  induction l with
  | nil => rfl
  | cons x xs ih => simp [sortRows, length_insertSorted, ih]

theorem sortRows_nil_order (l : List Row) : sortRows [] l = l := by
  induction l with
  | nil => rfl
  | cons x xs ih =>
    have hins : ∀ m : List Row, insertSorted (rowLe []) x m = x :: m := by
      intro m
      cases m with
      | nil => rfl
      | cons y ys =>
        have hle : rowLe [] x y = true := rfl
        simp [insertSorted, hle]
    simp [sortRows, ih, hins]

end Lemmas

/-- The claim's reading of `parseWhereKey`: the key splits on the FIRST `_`
delimiter, so the operator would be everything after the first underscore.
Stated from the claim's words to compare against the source function. -/
def parseWhereKeySpec (key : String) : String × String :=
  if hasChar '_' key.data then
    (String.mk (key.data.takeWhile (fun c => !(c == '_'))),
     String.mk ((key.data.dropWhile (fun c => !(c == '_'))).tail))
  else
    (key, "eq")

/-- C8 (counterexample): on a key with two underscores the source takes only
the segment between the first and second underscore as the operator
(`parts[1]` of a full split), not everything after the first underscore as
the claim states. -/
theorem c8_parseWhereKey_counterexample :
    parseWhereKey "lastName_starts_with" = ("lastName", "starts")
    ∧ parseWhereKeySpec "lastName_starts_with" = ("lastName", "starts_with")
    ∧ parseWhereKey "lastName_starts_with" ≠ parseWhereKeySpec "lastName_starts_with" := by
  exact ⟨by decide, by decide, by decide⟩

/-- C8 (amended): `parseWhereKey` splits the key on every `_`; for a key with
no underscore the attribute is the whole key and the operator defaults to
`eq`; for a key containing `_` the attribute is the text before the first
underscore and the operator is the segment strictly between the first and
second underscore (everything after the first underscore only when no second
underscore exists). -/
theorem c8_parseWhereKey_amended (key : String) :
    (hasChar '_' key.data = false → parseWhereKey key = (key, "eq"))
    ∧ (hasChar '_' key.data = true →
        parseWhereKey key =
          (String.mk (key.data.takeWhile (fun c => !(c == '_'))),
           String.mk (((key.data.dropWhile (fun c => !(c == '_'))).tail).takeWhile
             (fun c => !(c == '_'))))) := by
  constructor
  · intro h
    have h2 := splitChars_snd_nil '_' key.data h
    have h3 := takeWhile_of_not_has '_' key.data h
    simp [parseWhereKey, jsSplit, h2, splitChars_fst, h3]
  · intro h
    have hh := splitChars_snd_head '_' key.data h
    cases hsnd : (splitChars '_' key.data).2 with
    | nil => rw [hsnd] at hh; simp at hh
    | cons x rest =>
      rw [hsnd] at hh
      simp only [List.head?_cons, Option.some.injEq] at hh
      simp [parseWhereKey, jsSplit, hsnd, splitChars_fst, hh]

/-- C8 (witness): the amended statement applied to the source's own example
key `userName_contains`. -/
theorem c8_parseWhereKey_amended_witness :
    hasChar '_' "userName_contains".data = true
    ∧ parseWhereKey "userName_contains" = ("userName", "contains") := by
  refine ⟨by decide, ?_⟩
  have h := (c8_parseWhereKey_amended "userName_contains").2 (by decide)
  exact h.trans (by decide)

/-- C1: the query `buildFindQuery` builds carries the soft-delete policy on
the caller's filter: with no key beginning with `deletedAt_` among the
filter's leaf entries the implicit leaf `deletedAt_eq = null` is appended;
with a `deletedAt_all` key present (whatever its value) that key is removed
and no implicit filter is added; with any other explicit `deletedAt_*` key
the filter passes through unchanged. -/
theorem c1_soft_delete_policy (svc : ServiceInfo) (orderBy : List String)
    (po : Option LimitOffset) (fields : Option (List String))
    (ands ors nots : List WhereExpr) (leaves : List (String × LeafVal)) :
    (leaves.all (fun kv => !(strStarts "deletedAt_" kv.1)) = true →
      (buildFindQuery svc (.node ands ors nots leaves) orderBy po fields).query.whereFinal
        = .node ands ors nots (leaves ++ [("deletedAt_eq", LeafVal.scalar Value.vnull)]))
    ∧ (leaves.any (fun kv => kv.1 == "deletedAt_all") = true →
      (buildFindQuery svc (.node ands ors nots leaves) orderBy po fields).query.whereFinal
        = .node ands ors nots (leaves.filter (fun kv => kv.1 != "deletedAt_all")))
    ∧ (leaves.any (fun kv => strStarts "deletedAt_" kv.1) = true →
       leaves.all (fun kv => !(kv.1 == "deletedAt_all")) = true →
      (buildFindQuery svc (.node ands ors nots leaves) orderBy po fields).query.whereFinal
        = .node ands ors nots leaves) := by
  have hq : (buildFindQuery svc (.node ands ors nots leaves) orderBy po fields).query.whereFinal
      = applyDeletedAtPolicy (.node ands ors nots leaves) := rfl
  refine ⟨?_, ?_, ?_⟩
  · intro h
    have hfalse := any_eq_false_of_all_not _ leaves h
    rw [hq]
    simp [applyDeletedAtPolicy, hfalse]
  · intro h
    have hpref : leaves.any (fun kv => strStarts "deletedAt_" kv.1) = true := by
      rw [List.any_eq_true] at h ⊢
      obtain ⟨kv, hmem, hkv⟩ := h
      refine ⟨kv, hmem, ?_⟩
      rw [beq_iff_eq.mp hkv]
      decide
    rw [hq]
    simp [applyDeletedAtPolicy, hpref, h]
  · intro hpref hnone
    have hfalse := any_eq_false_of_all_not _ leaves hnone
    rw [hq]
    simp [applyDeletedAtPolicy, hpref, hfalse]

/-- C1 (witness): the three branches instantiated - a filter with no
`deletedAt_` key gains the implicit leaf, a filter with `deletedAt_all: false`
loses that key and gains nothing, and a filter with `deletedAt_gt` passes
through unchanged. -/
theorem c1_soft_delete_policy_witness :
    (buildFindQuery svcDemo (.node [] [] [] [("name_eq", LeafVal.scalar (Value.vstr "x"))])
        [] none none).query.whereFinal
      = .node [] [] [] [("name_eq", LeafVal.scalar (Value.vstr "x")),
                        ("deletedAt_eq", LeafVal.scalar Value.vnull)]
    ∧ (buildFindQuery svcDemo (.node [] [] [] [("deletedAt_all", LeafVal.scalar (Value.vint 0))])
        [] none none).query.whereFinal
      = .node [] [] [] []
    ∧ (buildFindQuery svcDemo (.node [] [] [] [("deletedAt_gt", LeafVal.scalar (Value.vstr "2020"))])
        [] none none).query.whereFinal
      = .node [] [] [] [("deletedAt_gt", LeafVal.scalar (Value.vstr "2020"))] := by
  refine ⟨?_, ?_, ?_⟩
  · exact (c1_soft_delete_policy svcDemo [] none none [] [] []
      [("name_eq", LeafVal.scalar (Value.vstr "x"))]).1 (by decide)
  · exact ((c1_soft_delete_policy svcDemo [] none none [] [] []
      [("deletedAt_all", LeafVal.scalar (Value.vint 0))]).2.1 (by decide)).trans (by rfl)
  · exact (c1_soft_delete_policy svcDemo [] none none [] [] []
      [("deletedAt_gt", LeafVal.scalar (Value.vstr "2020"))]).2.2 (by decide) (by decide)

/-- C9: `buildFindQuery` mutates its caller-supplied arguments in place - the
returned post-call contents of the `where` object are its policy-rewritten
form (possibly gaining a `deletedAt_eq: null` entry or losing its
`deletedAt_all` entry) and the `fields` array has `id` appended exactly when
it was absent; the three concrete conjuncts exhibit each visible change. -/
theorem c9_buildFindQuery_mutation :
    (∀ (svc : ServiceInfo) (whereIn : WhereExpr) (orderBy : List String)
       (po : Option LimitOffset) (fields : Option (List String)),
      (buildFindQuery svc whereIn orderBy po fields).whereOut = applyDeletedAtPolicy whereIn
      ∧ (buildFindQuery svc whereIn orderBy po fields).fieldsOut
          = fields.map (fun fs => if fs.contains "id" then fs else fs ++ ["id"]))
    ∧ (buildFindQuery svcDemo emptyWhere [] none (some ["name"])).fieldsOut
        = some ["name", "id"]
    ∧ (buildFindQuery svcDemo emptyWhere [] none none).whereOut
        = .node [] [] [] [("deletedAt_eq", LeafVal.scalar Value.vnull)]
    ∧ (buildFindQuery svcDemo (.node [] [] [] [("deletedAt_all", LeafVal.scalar (Value.vint 1))])
        [] none none).whereOut = emptyWhere := by
  refine ⟨fun svc whereIn orderBy po fields => ⟨rfl, rfl⟩, by rfl, by rfl, by rfl⟩

/-- C10: every built query carries a row limit - `find` defaults its limit to
20 and so never returns more than 20 rows when no limit is given;
`findConnection` resolves an absent `first`/`last` to 50 (so its query asks
for 51 rows); and `buildFindQuery` falls back to 50 both when page options
are absent and when the supplied limit is falsy (zero). -/
theorem c10_default_limits :
    (∀ (lm : LeafMatcher) (store : List Row) (svc : ServiceInfo) (w : WhereExpr)
       (ob : List String) (off : Option Nat) (f : Option (List String)),
      (buildFindQuery svc w ob (some { limit := 20, offset := off }) f).query.limit = 20
      ∧ (find lm store svc w ob none off f).length ≤ 20)
    ∧ (∀ (svc : ServiceInfo) (w : WhereExpr) (ob : List String)
       (a b : Option (List Value)) (req : RequestedFields),
      findConnectionLimit { first := none, after := a, last := none, before := b } = 50
      ∧ (findConnectionQuery svc w ob { first := none, after := a, last := none, before := b } req).limit = 51)
    ∧ (∀ (svc : ServiceInfo) (w : WhereExpr) (ob : List String)
       (off : Option Nat) (f : Option (List String)),
      (buildFindQuery svc w ob none f).query.limit = 50
      ∧ (buildFindQuery svc w ob (some { limit := 0, offset := off }) f).query.limit = 50) := by
  refine ⟨fun lm store svc w ob off f => ⟨rfl, ?_⟩,
          fun svc w ob a b req => ⟨rfl, rfl⟩,
          fun svc w ob off f => ⟨rfl, rfl⟩⟩
  exact List.length_take_le _ _

/-- C6: `findOne` fails with the not-found error when its (policy-rewritten)
filter matches no stored row, fails with the ambiguity error when it matches
two or more rows, and returns the unique matching entity when it matches
exactly one. -/
theorem c6_findOne_cardinality (lm : LeafMatcher) (store : List Row)
    (svc : ServiceInfo) (w : WhereExpr) :
    (store.filter (fun r => evalWhere lm r (applyDeletedAtPolicy w)) = [] →
      findOne lm store svc w = .error FindOneError.notFound)
    ∧ (∀ x, store.filter (fun r => evalWhere lm r (applyDeletedAtPolicy w)) = [x] →
      findOne lm store svc w = .ok x)
    ∧ (2 ≤ (store.filter (fun r => evalWhere lm r (applyDeletedAtPolicy w))).length →
      findOne lm store svc w = .error FindOneError.ambiguous) := by
  have hfind : find lm store svc w [] none none none
      = (store.filter (fun r => evalWhere lm r (applyDeletedAtPolicy w))).take 20 := by
    rw [show find lm store svc w [] none none none
        = ((sortRows [] (store.filter (fun r => evalWhere lm r (applyDeletedAtPolicy w)))).drop 0).take 20
        from rfl, sortRows_nil_order, List.drop_zero]
  refine ⟨?_, ?_, ?_⟩
  · intro h
    rw [h] at hfind
    simp [findOne, hfind]
  · intro x h
    rw [h] at hfind
    simp [findOne, hfind]
  · intro h
    simp only [findOne, hfind]
    have hlen : ((store.filter (fun r => evalWhere lm r (applyDeletedAtPolicy w))).take 20).length
        = min 20 (store.filter (fun r => evalWhere lm r (applyDeletedAtPolicy w))).length :=
      List.length_take _ _
    have h2 : 2 ≤ ((store.filter (fun r => evalWhere lm r (applyDeletedAtPolicy w))).take 20).length := by
      omega
    have hne : ((store.filter (fun r => evalWhere lm r (applyDeletedAtPolicy w))).take 20).isEmpty = false := by
      cases htake : (store.filter (fun r => evalWhere lm r (applyDeletedAtPolicy w))).take 20 with
      | nil => rw [htake] at h2; simp at h2
      | cons a b => simp
    rw [hne]
    simp only [Bool.false_eq_true, if_false]
    rw [if_pos (by omega)]

/-- A demonstration row. -/
def rowA : Row := [("id", Value.vint 1)]

/-- C6 (witness): a store holding exactly one row matching the empty filter
(rewritten to `deletedAt_eq = null` by the policy) makes `findOne` return it. -/
theorem c6_findOne_cardinality_witness :
    [rowA].filter (fun r => evalWhere lmDemo r (applyDeletedAtPolicy emptyWhere)) = [rowA]
    ∧ findOne lmDemo [rowA] svcDemo emptyWhere = .ok rowA := by
  refine ⟨by decide, ?_⟩
  exact (c6_findOne_cardinality lmDemo [rowA] svcDemo emptyWhere).2.1 rowA (by decide)

/-- C4: when the total count is requested, `findConnection` computes it by a
separate count query built from only the caller's filter - the count equals
the number of stored rows matching the policy-rewritten user filter, with no
cursor predicate and no limit applied - so it is identical whichever page
options are supplied. -/
theorem c4_totalCount_stability (lm : LeafMatcher) (store : List Row)
    (svc : ServiceInfo) (w : WhereExpr) (ob : List String)
    (po po2 : RelayPageOptionsInput) (req : RequestedFields) :
    (req.totalCount = true →
      (findConnection lm store svc w ob po req).totalCount
        = some ((store.filter (fun r => evalWhere lm r (applyDeletedAtPolicy w))).length))
    ∧ (findConnection lm store svc w ob po req).totalCount
        = (findConnection lm store svc w ob po2 req).totalCount := by
  constructor
  · intro h
    show (if req.totalCount then
        some (getCount lm store (buildFindQuery svc w [] none none).query) else none) = _
    rw [h]
    rfl
  · rfl

/-- C4 (witness): the stability statement applied at a one-row store with the
total count requested. -/
theorem c4_totalCount_stability_witness :
    (findConnection lmDemo [rowA] svcDemo emptyWhere []
        { first := some 1, after := none, last := none, before := none }
        { totalCount := true, selectFields := none }).totalCount = some 1 := by
  have h := (c4_totalCount_stability lmDemo [rowA] svcDemo emptyWhere []
    { first := some 1, after := none, last := none, before := none }
    { first := none, after := none, last := some 1, before := none }
    { totalCount := true, selectFields := none }).1 rfl
  exact h.trans (by decide)

/-- C5: `findConnection` asks the store for one row more than its resolved
limit; when more than `limit` rows come back the edges are exactly the first
`limit` fetched rows; and the further-page flag of the page info (previous
for backward mode, next for forward mode) is precisely whether the
`(limit+1)`-th row existed - it is a function of the over-fetched result set,
with no second count query involved. -/
theorem c5_overfetch_truncation (lm : LeafMatcher) (store : List Row)
    (svc : ServiceInfo) (w : WhereExpr) (ob : List String)
    (po : RelayPageOptionsInput) (req : RequestedFields) :
    (findConnectionQuery svc w ob po req).limit = findConnectionLimit po + 1
    ∧ ((execFind lm store (findConnectionQuery svc w ob po req)).length > findConnectionLimit po →
        (findConnection lm store svc w ob po req).edges
          = ((execFind lm store (findConnectionQuery svc w ob po req)).take (findConnectionLimit po)).map
              (fun item => ({ node := item, cursor := encodeCursor item (normalizeSort ob) } : ConnectionEdge))
        ∧ (findConnection lm store svc w ob po req).edges.length = findConnectionLimit po)
    ∧ ((if isLastBefore po then (findConnection lm store svc w ob po req).pageInfo.hasPreviousPage
        else (findConnection lm store svc w ob po req).pageInfo.hasNextPage)
        = decide ((execFind lm store (findConnectionQuery svc w ob po req)).length > findConnectionLimit po)) := by
  refine ⟨rfl, ?_, ?_⟩
  · intro h
    constructor
    · show (if (execFind lm store (findConnectionQuery svc w ob po req)).length > findConnectionLimit po
          then (execFind lm store (findConnectionQuery svc w ob po req)).take (findConnectionLimit po)
          else execFind lm store (findConnectionQuery svc w ob po req)).map
            (fun item => ({ node := item, cursor := encodeCursor item (normalizeSort ob) } : ConnectionEdge)) = _
      rw [if_pos h]
    · show ((if (execFind lm store (findConnectionQuery svc w ob po req)).length > findConnectionLimit po
          then (execFind lm store (findConnectionQuery svc w ob po req)).take (findConnectionLimit po)
          else execFind lm store (findConnectionQuery svc w ob po req)).map
            (fun item => ({ node := item, cursor := encodeCursor item (normalizeSort ob) } : ConnectionEdge))).length = _
      rw [if_pos h]
      rw [List.length_map, List.length_take]
      omega
  · by_cases hlb : isLastBefore po = true
    · simp only [hlb, if_true]
      show (getPageInfo (execFind lm store (findConnectionQuery svc w ob po req))
        (normalizeSort ob) (findConnectionRelayOptions po)).hasPreviousPage = _
      rw [show findConnectionRelayOptions po
          = .lastBefore (findConnectionLimit po) po.before from by
        simp [findConnectionRelayOptions, hlb]]
      rfl
    · simp only [Bool.not_eq_true] at hlb
      simp only [hlb, Bool.false_eq_true, if_false]
      show (getPageInfo (execFind lm store (findConnectionQuery svc w ob po req))
        (normalizeSort ob) (findConnectionRelayOptions po)).hasNextPage = _
      rw [show findConnectionRelayOptions po
          = .firstAfter (findConnectionLimit po) po.after from by
        simp [findConnectionRelayOptions, hlb]]
      rfl

/-- A second demonstration row. -/
def rowB : Row := [("id", Value.vint 2)]

/-- A third demonstration row. -/
def rowC : Row := [("id", Value.vint 3)]

/-- C5 (witness): a three-row store queried with `first = 2` over-fetches 3
rows, truncates the edges to 2, and reports a further page. -/
theorem c5_overfetch_truncation_witness :
    (execFind lmDemo [rowA, rowB, rowC] (findConnectionQuery svcDemo emptyWhere []
        { first := some 2, after := none, last := none, before := none }
        { totalCount := false, selectFields := none })).length
      > findConnectionLimit { first := some 2, after := none, last := none, before := none }
    ∧ (findConnection lmDemo [rowA, rowB, rowC] svcDemo emptyWhere []
        { first := some 2, after := none, last := none, before := none }
        { totalCount := false, selectFields := none }).edges.length = 2 := by
  refine ⟨by decide, ?_⟩
  exact ((c5_overfetch_truncation lmDemo [rowA, rowB, rowC] svcDemo emptyWhere []
    { first := some 2, after := none, last := none, before := none }
    { totalCount := false, selectFields := none }).2.1 (by decide)).2

/-- C3 (counterexample): three rows with identifiers 1, 2, 3 queried in
ascending identifier order with `last = 2`.  The claim predicts edges in the
requested (ascending) order - `[2, 3]` - but the source maps the reverse-order
fetch to edges without re-reversing, so the edges come back as `[3, 2]`. -/
theorem c3_backward_order_counterexample :
    (findConnection lmDemo [rowA, rowB, rowC] svcDemo emptyWhere ["id_ASC"]
        { first := none, after := none, last := some 2, before := none }
        { totalCount := false, selectFields := none }).edges.map (fun e => e.node)
      = [rowC, rowB]
    ∧ [rowC, rowB] ≠ [rowB, rowC] := by
  exact ⟨by decide, by decide⟩

/-- C3 (amended): for a `last`/`before` call the rows are fetched in the
reverse of the requested sort order (with the cursor predicate inverted, per
`getFilters`), but the returned slice is NOT re-reversed: the edges are the
fetched rows in fetch order, so they appear in the reverse of the requested
sort order. -/
theorem c3_backward_order_amended (lm : LeafMatcher) (store : List Row)
    (svc : ServiceInfo) (w : WhereExpr) (ob : List String)
    (po : RelayPageOptionsInput) (req : RequestedFields)
    (h : isLastBefore po = true) :
    effectiveOrderStrings (normalizeSort ob) (findConnectionRelayOptions po)
      = (flipDirs (normalizeSort ob)).map sortToString
    ∧ (findConnection lm store svc w ob po req).edges.map (fun e => e.node)
      = (if (execFind lm store (findConnectionQuery svc w ob po req)).length > findConnectionLimit po
         then (execFind lm store (findConnectionQuery svc w ob po req)).take (findConnectionLimit po)
         else execFind lm store (findConnectionQuery svc w ob po req)) := by
  constructor
  · rw [show findConnectionRelayOptions po
        = .lastBefore (findConnectionLimit po) po.before from by
      simp [findConnectionRelayOptions, h]]
    rfl
  · show ((if (execFind lm store (findConnectionQuery svc w ob po req)).length > findConnectionLimit po
        then (execFind lm store (findConnectionQuery svc w ob po req)).take (findConnectionLimit po)
        else execFind lm store (findConnectionQuery svc w ob po req)).map
          (fun item => ({ node := item, cursor := encodeCursor item (normalizeSort ob) } : ConnectionEdge))).map
        (fun e => e.node) = _
    rw [List.map_map]
    exact List.map_id _

/-- C3 (amended, witness): the amended statement at the counterexample's
input - the effective order flips to descending and the edges are the fetched
slice unreversed. -/
theorem c3_backward_order_amended_witness :
    effectiveOrderStrings (normalizeSort ["id_ASC"])
      (findConnectionRelayOptions { first := none, after := none, last := some 2, before := none })
      = ["id_DESC"]
    ∧ (findConnection lmDemo [rowA, rowB, rowC] svcDemo emptyWhere ["id_ASC"]
        { first := none, after := none, last := some 2, before := none }
        { totalCount := false, selectFields := none }).edges.map (fun e => e.node)
      = (execFind lmDemo [rowA, rowB, rowC] (findConnectionQuery svcDemo emptyWhere ["id_ASC"]
          { first := none, after := none, last := some 2, before := none }
          { totalCount := false, selectFields := none })).take 2 := by
  have h := c3_backward_order_amended lmDemo [rowA, rowB, rowC] svcDemo emptyWhere ["id_ASC"]
    { first := none, after := none, last := some 2, before := none }
    { totalCount := false, selectFields := none } (by decide)
  refine ⟨h.1.trans (by decide), h.2.trans ?_⟩
  decide

/-- A one-to-many relation as the test model's `Author.books` exposes it. -/
def relBooksDemo : RelationMetadata :=
  { propertyName := "books", relationType := "one-to-many",
    inverseTableName := "book",
    inverseColumns := [{ propertyPath := "id", databasePath := "id" },
                       { propertyPath := "starRating", databasePath := "star_rating" },
                       { propertyPath := "author", databasePath := "author_id" }],
    inverseJoinColumnProperty := "author" }

/-- The `every` relation filter `books_every: \x7b starRating_eq: 5 \x7d` on an
author service. -/
def pBooksDemo : WhereRelationParameters :=
  { attr := "books", operator := "every",
    whereParameter := [("starRating_eq", Value.vint 5)],
    relations := [relBooksDemo],
    baseService := { klass := "author", columnMap := [("id", "id"), ("name", "name")] } }

/-- A demonstration compiled leaf condition. -/
def cDemo : WhereCondItem :=
  { paramKey := "param0", column := "\"x\".\"y\"", op := "eq", value := Value.vint 5 }

/-- A one-to-many relation like `Author.books` whose related entity also has
a `name` column, for nested filters with more than one key. -/
def relBooks2Demo : RelationMetadata :=
  { propertyName := "books", relationType := "one-to-many",
    inverseTableName := "book",
    inverseColumns := [{ propertyPath := "id", databasePath := "id" },
                       { propertyPath := "starRating", databasePath := "star_rating" },
                       { propertyPath := "name", databasePath := "name" },
                       { propertyPath := "author", databasePath := "author_id" }],
    inverseJoinColumnProperty := "author" }

/-- The two-key `every` relation filter
`books_every: \x7b starRating_eq: 5, name_eq: "x" \x7d` on an author service. -/
def pTwoKeyDemo : WhereRelationParameters :=
  { attr := "books", operator := "every",
    whereParameter := [("starRating_eq", Value.vint 5), ("name_eq", Value.vstr "x")],
    relations := [relBooks2Demo],
    baseService := { klass := "author", columnMap := [("id", "id"), ("name", "name")] } }

/-- The compiled first condition of the two-key nested filter. -/
def cond1Demo : WhereCondItem :=
  { paramKey := "param0", column := "\"alias0\".\"star_rating\"", op := "eq",
    value := Value.vint 5 }

/-- The compiled second condition of the two-key nested filter. -/
def cond2Demo : WhereCondItem :=
  { paramKey := "param1", column := "\"alias0\".\"name\"", op := "eq",
    value := Value.vstr "x" }

/-- A concrete interpretation of compiled leaf conditions for the
counterexample: rows are keyed by the condition's column reference and `eq`
compares values. -/
def matcherDemo (c : WhereCondItem) (r : Row) : Bool :=
  if c.op == "eq" then (rowLookup r c.column).getD Value.vnull == c.value else false

/-- A related row satisfying both nested conditions. -/
def rGoodDemo : Row :=
  [("\"alias0\".\"star_rating\"", Value.vint 5), ("\"alias0\".\"name\"", Value.vstr "x")]

/-- A related row satisfying the first nested condition but not the second. -/
def rBadDemo : Row :=
  [("\"alias0\".\"star_rating\"", Value.vint 5), ("\"alias0\".\"name\"", Value.vstr "y")]

/-- C2 (counterexample): the claim says the `every` HAVING counts the related
rows satisfying THE NESTED PREDICATE.  The source feeds only
`tmpQb.expressionMap.wheres[0].condition` into the HAVING (lines 1194, 1305),
so for the two-key nested filter both conditions compile but only the first
is counted: a related row failing the second condition (hence the nested
predicate) still counts as matching, and the emitted HAVING pair accepts a
parent that the claim's `count(matching) = count(total)` would reject. -/
theorem c2_every_quantifier_counterexample :
    (compileWhereItems "alias0" (createColumnMap relBooks2Demo.inverseColumns) 0
        pTwoKeyDemo.whereParameter).1 = [cond1Demo, cond2Demo]
    ∧ (processWhereRelation pTwoKeyDemo {}).map (fun r => r.2.qb.havings)
        = .ok [HavingCond.everyCount "\"alias0\".\"author_id\"" cond1Demo,
               HavingCond.countGtOne "\"alias0\".\"author_id\""]
    ∧ matcherDemo cond2Demo rBadDemo = false
    ∧ evalHavings matcherDemo [rGoodDemo, rBadDemo]
        [HavingCond.everyCount "\"alias0\".\"author_id\"" cond1Demo,
         HavingCond.countGtOne "\"alias0\".\"author_id\""] = true
    ∧ ([rGoodDemo, rBadDemo].filter
        (fun r => matcherDemo cond1Demo r && matcherDemo cond2Demo r)).length
        ≠ [rGoodDemo, rBadDemo].length := by
  exact ⟨by rfl, by rfl, by rfl, by rfl, by decide⟩

/-- C2 (amended): for a one-to-many or many-to-many relation filter with the
`every` quantifier the resolver groups the outermost query by the parent
identifier and emits the HAVING pair `COUNT(fid) = COUNT(CASE WHEN c THEN 1
ELSE NULL END)` and `COUNT(fid) > 1`, where `fid` is the related identifier
column (the aliased back-reference column for one-to-many, the related
table's `id` for many-to-many) and `c` is the compiled FIRST condition of the
nested filter - the whole nested predicate only when the nested filter has a
single key; consequently a parent whose related rows all match but number
exactly one never satisfies `every`. -/
theorem c2_every_quantifier_amended (p : WhereRelationParameters) (st : RelState)
    (rel : RelationMetadata) (item0 : String × Value) (rest : List (String × Value))
    (hfind : p.relations.find? (fun item => item.propertyName == p.attr) = some rel)
    (hop : p.operator = "every")
    (hwp : p.whereParameter = item0 :: rest) :
    (rel.relationType = "one-to-many" →
      (processWhereRelation p st).map (fun r => (r.1, r.2.qb.havings, r.2.top.groupBys))
        = .ok (true,
            st.qb.havings ++
              [HavingCond.everyCount
                 (quote2 ("alias" ++ toString st.aliasCounter)
                   (jsIndex (createColumnMap rel.inverseColumns) rel.inverseJoinColumnProperty))
                 (WhereCondItem.mk ("param" ++ toString st.counter)
                   (quote2 ("alias" ++ toString st.aliasCounter)
                     (jsIndex (createColumnMap rel.inverseColumns) (parseWhereKey item0.1).1))
                   (parseWhereKey item0.1).2 item0.2),
               HavingCond.countGtOne
                 (quote2 ("alias" ++ toString st.aliasCounter)
                   (jsIndex (createColumnMap rel.inverseColumns) rel.inverseJoinColumnProperty))],
            ["\"" ++ p.baseService.klass ++ "\".id"]))
    ∧ (rel.relationType = "many-to-many" →
      (processWhereRelation p st).map (fun r => (r.1, r.2.qb.havings, r.2.top.groupBys))
        = .ok (true,
            st.qb.havings ++
              [HavingCond.everyCount (quote2 rel.inverseTableName "id")
                 (WhereCondItem.mk ("param" ++ toString st.counter)
                   (quote2 rel.inverseTableName
                     (jsIndex (createColumnMap rel.inverseColumns) (parseWhereKey item0.1).1))
                   (parseWhereKey item0.1).2 item0.2),
               HavingCond.countGtOne (quote2 rel.inverseTableName "id")],
            ["\"" ++ p.baseService.klass ++ "\".id"]))
    ∧ (∀ (matcher : WhereCondItem → Row → Bool) (relatedRows : List Row)
         (fid : String) (c : WhereCondItem),
        relatedRows.length = 1 → relatedRows.all (matcher c) = true →
        evalHavings matcher relatedRows
          [HavingCond.everyCount fid c, HavingCond.countGtOne fid] = false) := by
  refine ⟨?_, ?_, ?_⟩
  · intro hot
    obtain ⟨attr, operator, wp, rels, bsvc⟩ := p
    obtain ⟨pn, rt, own, invTab, invCols, invJoinProp, junc, jcn, ijcn, irjcn, irijcn⟩ := rel
    simp only at hfind hop hwp hot ⊢
    subst hop
    subst hwp
    subst hot
    simp only [processWhereRelation, hfind, processWhereRelationOneToMany,
      common, addWhereCondition, compileWhereItems, emptyQB]
    simp only [List.nil_append, List.head?_cons, Except.map]
    rfl
  · intro hot
    obtain ⟨attr, operator, wp, rels, bsvc⟩ := p
    obtain ⟨pn, rt, own, invTab, invCols, invJoinProp, junc, jcn, ijcn, irjcn, irijcn⟩ := rel
    simp only at hfind hop hwp hot ⊢
    subst hop
    subst hwp
    subst hot
    simp only [processWhereRelation, hfind, processWhereRelationManyToMany,
      addWhereCondition, compileWhereItems, emptyQB]
    simp only [List.nil_append, List.head?_cons, Except.map]
    rfl
  · intro matcher relatedRows fid c h1 h2
    simp [evalHavings, evalHaving, h1]

/-- C2 (amended, witness): the single-key books example - the resolver emits
the HAVING pair over the compiled nested condition (`star_rating` equals 5 on
the aliased related table) and the related back-reference id column, replaces
the group-by with the parent identifier, and a single all-matching related
row fails the pair. -/
theorem c2_every_quantifier_amended_witness :
    (processWhereRelation pBooksDemo {}).map (fun r => (r.1, r.2.qb.havings, r.2.top.groupBys))
      = .ok (true,
          [HavingCond.everyCount "\"alias0\".\"author_id\""
             (WhereCondItem.mk "param0" "\"alias0\".\"star_rating\"" "eq" (Value.vint 5)),
           HavingCond.countGtOne "\"alias0\".\"author_id\""],
          ["\"author\".id"])
    ∧ evalHavings (fun _ _ => true) [rowA]
        [HavingCond.everyCount "f" cDemo, HavingCond.countGtOne "f"] = false := by
  have h := c2_every_quantifier_amended pBooksDemo {} relBooksDemo
    ("starRating_eq", Value.vint 5) [] rfl rfl rfl
  exact ⟨(h.1 rfl).trans (by rfl),
         h.2.2 (fun _ _ => true) [rowA] "f" cDemo rfl rfl⟩

/-- C7: a leaf filter naming a relation of unknown cardinality, or using an
unknown quantifier operator on a one-to-many or many-to-many relation, makes
the resolver fail with a descriptive error naming the offending cardinality
or operator - it neither reports scalar fallthrough (`ok false`) nor
succeeds, so the filter is never reinterpreted or dropped. -/
theorem c7_unknown_relation_errors (p : WhereRelationParameters) (st : RelState)
    (rel : RelationMetadata)
    (hfind : p.relations.find? (fun item => item.propertyName == p.attr) = some rel) :
    ((rel.relationType == "one-to-many") = false →
     (rel.relationType == "many-to-one") = false →
     (rel.relationType == "one-to-one") = false →
     (rel.relationType == "many-to-many") = false →
      processWhereRelation p st
        = .error ("Unknown relation type \"" ++ rel.relationType ++ "\""))
    ∧ (rel.relationType = "one-to-many" →
       (p.operator == "some") = false →
       (p.operator == "none") = false →
       (p.operator == "every") = false →
      processWhereRelation p st
        = .error ("Unknown many-to-one operator \"" ++ p.operator ++ "\""))
    ∧ (rel.relationType = "many-to-many" →
       (p.operator == "some") = false →
       (p.operator == "none") = false →
       (p.operator == "every") = false →
      processWhereRelation p st
        = .error ("Unknown many-to-many operator \"" ++ p.operator ++ "\"")) := by
  refine ⟨?_, ?_, ?_⟩
  · intro h1 h2 h3 h4
    simp [processWhereRelation, hfind, h1, h2, h3, h4]
  · intro hot hs hn he
    simp [processWhereRelation, hfind, hot, processWhereRelationOneToMany,
      hs, hn, he, Except.map]
  · intro hot hs hn he
    simp [processWhereRelation, hfind, hot, processWhereRelationManyToMany,
      hs, hn, he, Except.map]

/-- A relation with a cardinality string the resolver does not know. -/
def relUnknownDemo : RelationMetadata :=
  { propertyName := "author", relationType := "one-to-zero" }

/-- A filter naming the unknown-cardinality relation. -/
def pUnknownDemo : WhereRelationParameters :=
  { attr := "author", operator := "some", whereParameter := [],
    relations := [relUnknownDemo], baseService := svcDemo }

/-- A one-to-many relation filter using the unknown quantifier `all`. -/
def pBadOpDemo : WhereRelationParameters :=
  { attr := "books", operator := "all",
    whereParameter := [("starRating_eq", Value.vint 5)],
    relations := [relBooksDemo],
    baseService := { klass := "author", columnMap := [("id", "id"), ("name", "name")] } }

/-- C7 (witness): the error statement applied to an unknown cardinality and
to an unknown one-to-many quantifier. -/
theorem c7_unknown_relation_errors_witness :
    processWhereRelation pUnknownDemo {} = .error "Unknown relation type \"one-to-zero\""
    ∧ processWhereRelation pBadOpDemo {} = .error "Unknown many-to-one operator \"all\"" := by
  constructor
  · exact ((c7_unknown_relation_errors pUnknownDemo {} relUnknownDemo rfl).1
      (by decide) (by decide) (by decide) (by decide)).trans (by rfl)
  · exact ((c7_unknown_relation_errors pBadOpDemo {} relBooksDemo rfl).2.1
      rfl (by decide) (by decide) (by decide)).trans (by rfl)


